import Mathlib

/-!
# Verification of the AC-compressor fault-detection telemetry core

Shallow embedding of `src/app.py`: the shared telemetry store (`SensorData`),
the MQTT message handler (`on_message`), the clear-history button handler,
and the prediction block.

Modelling conventions:
* Python floats are modelled as `ℚ` (no claim depends on rounding or on
  NaN/infinity propagation).
* A decoded JSON document is modelled by `JValue`; the decoded payload dict
  by `Payload := List (String × JValue)` with Python-dict semantics
  (unique keys produced by `json.loads`; `dictSet` replaces in place or
  appends, `dictGet?` finds the binding).
* `json.loads(msg.payload.decode("utf-8"))` either yields a dict or raises
  (it also effectively raises later, inside the handler, when the document is
  not a dict, e.g. a bare list or string, before any state is touched); the
  inbound message is therefore modelled as `Option Payload`, `none` covering
  every payload whose processing raises before the locked mutation block.
* Clock reads (`datetime.now`) are passed in as the two preformatted
  timestamp strings the handler computes before taking the lock.
-/

/-- A decoded JSON value, as produced by `json.loads`. -/
inductive JValue where
  | null
  | bool (b : Bool)
  | num (q : ℚ)
  | str (s : String)
  | arr (elems : List JValue)
  | obj (fields : List (String × JValue))
deriving Repr

/-- Digit-string value: `some n` when every character is a digit and the
string is non-empty, else `none`. -/
def digitsVal? (cs : List Char) : Option ℕ :=
  match cs with
  | [] => none
  | _ => cs.foldl
      (fun acc c => acc.bind (fun n => if c.isDigit then some (10 * n + (c.toNat - 48)) else none))
      (some 0)

/-- Unsigned decimal literal: digits with an optional fractional part
(`"3"`, `"3.5"`, `"3."`, `".5"`). -/
def parseUnsigned? (cs : List Char) : Option ℚ :=
  let intPart := cs.takeWhile (fun c => c ≠ '.')
  match cs.dropWhile (fun c => c ≠ '.') with
  | [] => (digitsVal? intPart).map (fun n => (n : ℚ))
  | _ :: frac =>
    if intPart = [] ∧ frac = [] then none
    else
      (if intPart = [] then some 0 else digitsVal? intPart).bind (fun i =>
        (if frac = [] then some (0 : ℚ)
         else (digitsVal? frac).map (fun f => (f : ℚ) / (10 : ℚ) ^ frac.length)).map
          (fun fv => (i : ℚ) + fv))

/-- Model of Python `float(s)` on a string: optional sign then an unsigned
decimal literal, surrounding whitespace stripped.  (Exotic acceptable forms
such as exponents, `"inf"` or `"nan"` are not modelled; no claim involves
them.) -/
def parseFloat? (s : String) : Option ℚ :=
  match s.trim.toList with
  | '-' :: rest => (parseUnsigned? rest).map (fun q => -q)
  | '+' :: rest => parseUnsigned? rest
  | cs => parseUnsigned? cs

/-- Model of Python `float(x)` on a decoded JSON value: `some` the numeric
value when the conversion succeeds, `none` when it raises
(`TypeError`/`ValueError`).  `float(True) = 1.0`, `float(False) = 0.0`. -/
def pyFloat? : JValue → Option ℚ
  | .null => none
  | .bool b => some (if b then 1 else 0)
  | .num q => some q
  | .str s => parseFloat? s
  | .arr _ => none
  | .obj _ => none

/-- `safe_float` from `src/app.py`: `None` short-circuits to the default,
any conversion failure is caught and yields the default. -/
def safe_float (x : JValue) (dflt : ℚ := 0) : ℚ :=
  match x with
  | .null => dflt
  | v => (pyFloat? v).getD dflt

/-- The decoded payload dict. -/
abbrev Payload : Type := List (String × JValue)

/-- Python dict lookup `payload[k]` / `payload.get(k)` (keys are unique in a
dict produced by `json.loads`, so first match suffices). -/
def dictGet? : Payload → String → Option JValue
  | [], _ => none
  | (k', v) :: rest, k => if k' = k then some v else dictGet? rest k

/-- Python `k in payload`. -/
def hasKey (p : Payload) (k : String) : Bool :=
  (dictGet? p k).isSome

/-- Python `payload[k] = v`: replace in place when the key is present,
append otherwise. -/
def dictSet (p : Payload) (k : String) (v : JValue) : Payload :=
  if hasKey p k then
    p.map (fun kv => if kv.1 = k then (k, v) else kv)
  else
    p ++ [(k, v)]

/-- `MAX_ROWS` from `src/app.py` (history length cap). -/
def MAX_ROWS : ℕ := 5000

/-- One history row, as appended by `on_message` (field names are the
dict keys used in the source, e.g. `"Noise (dB)"`). -/
structure HistRow where
  timestamp : String
  noise_db : ℚ
  expansion_valve_outlet_temp : ℚ
  condenser_inlet_temp : ℚ
  ambient_temp : ℚ
  humidity : ℚ
  voltage : ℚ
  current : ℚ
  power : ℚ
deriving Repr, DecidableEq

/-- The shared store `SensorData`: the `data` dict fields plus the
`history` list (the lock is the concurrency discipline, not state). -/
structure SensorState where
  noise_db : ℚ
  expansion_valve_outlet_temp : ℚ
  condenser_inlet_temp : ℚ
  ambient_temp : ℚ
  humidity : ℚ
  voltage : ℚ
  current : ℚ
  power : ℚ
  last_update : String
  count : ℕ
  history : List HistRow
deriving Repr, DecidableEq

/-- `SensorData.__init__`. -/
def initState : SensorState :=
  { noise_db := 0
    expansion_valve_outlet_temp := 0
    condenser_inlet_temp := 0
    ambient_temp := 0
    humidity := 0
    voltage := 0
    current := 0
    power := 0
    last_update := "Waiting..."
    count := 0
    history := [] }

/-- The backward-compatibility block of `on_message`: alias
`water_outlet_temp` to `expansion_valve_outlet_temp` when only the legacy
key is present, and default a missing `condenser_inlet_temp` to `0.0`. -/
def applyCompat (payload : Payload) : Payload :=
  let p1 :=
    if hasKey payload "water_outlet_temp" && ! hasKey payload "expansion_valve_outlet_temp" then
      dictSet payload "expansion_valve_outlet_temp" ((dictGet? payload "water_outlet_temp").getD .null)
    else payload
  if ! hasKey p1 "condenser_inlet_temp" then dictSet p1 "condenser_inlet_temp" (.num 0) else p1

/-- `safe_float(payload.get(k, 0))` — the per-field extraction used for all
eight sensor fields. -/
def getField (p : Payload) (k : String) : ℚ :=
  safe_float ((dictGet? p k).getD (.num 0)) 0

/-- The history row `on_message` appends, built from the
compatibility-adjusted payload `p` and the microsecond timestamp. -/
def mkRow (ts_for_history : String) (p : Payload) : HistRow :=
  { timestamp := ts_for_history
    noise_db := getField p "noise_db"
    expansion_valve_outlet_temp := getField p "expansion_valve_outlet_temp"
    condenser_inlet_temp := getField p "condenser_inlet_temp"
    ambient_temp := getField p "ambient_temp"
    humidity := getField p "humidity"
    voltage := getField p "voltage"
    current := getField p "current"
    power := getField p "power" }

/-- `on_message` from `src/app.py`.  `msg = none` models a raw payload whose
processing raises before the locked mutation block (undecodable bytes or a
non-dict document): the `except` clause only logs, so the state is returned
unchanged.  For a dict payload: apply the compatibility block, overwrite
every snapshot field from the payload (missing or unparseable values
coerce to `0.0` via `safe_float`), stamp `last_update`, increment `count`,
append one history row, then cap the history at the last `MAX_ROWS` rows
(`history = history[-MAX_ROWS:]`). -/
def on_message (s : SensorState) (ts_for_history ts_for_status : String)
    (msg : Option Payload) : SensorState :=
  match msg with
  | none => s
  | some payload =>
    let p := applyCompat payload
    let row := mkRow ts_for_history p
    let history := s.history ++ [row]
    { noise_db := row.noise_db
      expansion_valve_outlet_temp := row.expansion_valve_outlet_temp
      condenser_inlet_temp := row.condenser_inlet_temp
      ambient_temp := row.ambient_temp
      humidity := row.humidity
      voltage := row.voltage
      current := row.current
      power := row.power
      last_update := ts_for_status
      count := s.count + 1
      history := if history.length > MAX_ROWS then history.drop (history.length - MAX_ROWS) else history }

/-- The Clear button handler: `sensor_data.history.clear()` under the lock;
nothing else is touched. -/
def clear_history (s : SensorState) : SensorState :=
  { s with history := [] }

/-- One accepted inbound message: the two timestamps the handler formats
plus the decoded dict payload. -/
structure InMsg where
  ts_for_history : String
  ts_for_status : String
  payload : Payload

/-- Process a sequence of accepted (dict-decoding) messages in arrival
order. -/
def processAll (s : SensorState) (msgs : List InMsg) : SensorState :=
  msgs.foldl (fun st m => on_message st m.ts_for_history m.ts_for_status (some m.payload)) s

/-- The history row a single accepted message contributes (it depends only
on the message, not on the prior state: every snapshot field is overwritten
before the row is built). -/
def rowOf (m : InMsg) : HistRow :=
  mkRow m.ts_for_history (applyCompat m.payload)

/-- The eight recognized sensor keys of a raw payload. -/
def sensorKeys : List String :=
  ["noise_db", "expansion_valve_outlet_temp", "condenser_inlet_temp", "ambient_temp",
   "humidity", "voltage", "current", "power"]

/-- An operation on the store: an inbound MQTT message (possibly
malformed) or a press of the Clear button. -/
inductive Op where
  | message (ts_for_history ts_for_status : String) (msg : Option Payload)
  | clearHistory

/-- Apply one operation to the store. -/
def step (s : SensorState) : Op → SensorState
  | .message t1 t2 m => on_message s t1 t2 m
  | .clearHistory => clear_history s

/-- Run a sequence of operations from a state. -/
def run (s : SensorState) (ops : List Op) : SensorState :=
  ops.foldl step s

/-- Whether an operation is an accepted (dict-decoding) inbound message —
the only kind of operation whose handler reaches the `count += 1` line. -/
def isAccepted : Op → Bool
  | .message _ _ (some _) => true
  | .message _ _ none => false
  | .clearHistory => false

/-- The last `n` elements of a list (Python `l[-n:]` for `n ≤ len`). -/
def lastN (n : ℕ) (l : List α) : List α :=
  l.drop (l.length - n)

/-- The prediction block: feature vector `[noise_db, exp_valve_temp, 0.0]`
(third entry is the retired water-flow placeholder), built once from the
snapshot and handed to both `bearings_model.predict` and
`radiator_model.predict`. -/
def predictionInputs (s : SensorState) : List ℚ × List ℚ :=
  let noise_val := s.noise_db
  let exp_valve_temp := s.expansion_valve_outlet_temp
  let water_flow_placeholder : ℚ := 0
  let values := [noise_val, exp_valve_temp, water_flow_placeholder]
  (values, values)

/-- `faults = int(p_bearings) + int(p_radiator)` from the prediction
block. -/
def fault_count (p_bearings p_radiator : ℕ) : ℕ :=
  p_bearings + p_radiator

/-- Per-component status: `"Normal" if int(p) == 0 else "Fault"`. -/
def isNormal (p : ℕ) : Bool :=
  p == 0

/-- The aggregate banner: the all-normal success message is shown iff
`faults == 0`. -/
def allNormal (p_bearings p_radiator : ℕ) : Bool :=
  fault_count p_bearings p_radiator == 0

/-! ## Dictionary lemmas -/

lemma dictGet?_append_left {p : Payload} (q : Payload) {k : String} {v : JValue}
    (h : dictGet? p k = some v) : dictGet? (p ++ q) k = some v := by
  induction p with
  | nil => simp [dictGet?] at h
  | cons kv rest ih =>
    obtain ⟨a, b⟩ := kv
    simp only [List.cons_append, dictGet?] at h ⊢
    by_cases ha : a = k
    · simpa [ha] using h
    · rw [if_neg ha] at h ⊢
      exact ih h

lemma dictGet?_append_right {p : Payload} (q : Payload) {k : String}
    (h : dictGet? p k = none) : dictGet? (p ++ q) k = dictGet? q k := by
  induction p with
  | nil => simp
  | cons kv rest ih =>
    obtain ⟨a, b⟩ := kv
    simp only [List.cons_append, dictGet?] at h ⊢
    by_cases ha : a = k
    · rw [if_pos ha] at h; exact absurd h (by simp)
    · rw [if_neg ha] at h ⊢
      exact ih h

lemma hasKey_eq_false_iff {p : Payload} {k : String} :
    hasKey p k = false ↔ dictGet? p k = none := by
  cases h : dictGet? p k <;> simp [hasKey, h]

lemma hasKey_eq_true_iff {p : Payload} {k : String} :
    hasKey p k = true ↔ ∃ v, dictGet? p k = some v := by
  cases h : dictGet? p k <;> simp [hasKey, h]

lemma dictGet?_map_set_ne (p : Payload) {k k' : String} (v : JValue) (h : k' ≠ k) :
    dictGet? (p.map (fun kv => if kv.1 = k' then (k', v) else kv)) k = dictGet? p k := by
  induction p with
  | nil => rfl
  | cons kv rest ih =>
    obtain ⟨a, b⟩ := kv
    simp only [List.map_cons]
    by_cases ha : a = k'
    · have hak : a ≠ k := fun hh => h (ha.symm.trans hh)
      rw [if_pos ha]
      simp only [dictGet?, if_neg h, if_neg hak]
      exact ih
    · rw [if_neg ha]
      simp only [dictGet?]
      by_cases hak : a = k
      · rw [if_pos hak, if_pos hak]
      · rw [if_neg hak, if_neg hak]
        exact ih

lemma dictGet?_dictSet_ne (p : Payload) {k k' : String} (v : JValue) (h : k' ≠ k) :
    dictGet? (dictSet p k' v) k = dictGet? p k := by
  unfold dictSet
  by_cases hk : hasKey p k'
  · rw [if_pos hk]
    exact dictGet?_map_set_ne p v h
  · rw [if_neg hk]
    rcases hv : dictGet? p k with _ | v₀
    · rw [dictGet?_append_right _ hv]
      simp [dictGet?, h]
    · exact dictGet?_append_left _ hv

lemma dictGet?_dictSet_self_of_none (p : Payload) (k : String) (v : JValue)
    (h : dictGet? p k = none) : dictGet? (dictSet p k v) k = some v := by
  unfold dictSet
  rw [if_neg (by simp [hasKey_eq_false_iff, h]), dictGet?_append_right _ h]
  simp [dictGet?]

/-! ## `lastN` lemmas -/

lemma lastN_length (n : ℕ) (l : List α) : (lastN n l).length = min n l.length := by
  simp only [lastN, List.length_drop]
  omega

lemma lastN_of_length_le (n : ℕ) (l : List α) (h : l.length ≤ n) : lastN n l = l := by
  simp [lastN, Nat.sub_eq_zero_of_le h]

lemma take_append_lastN (n : ℕ) (l : List α) :
    l.take (l.length - n) ++ lastN n l = l :=
  List.take_append_drop _ l

lemma lastN_append_right (n : ℕ) (pre x : List α) (h : n ≤ x.length) :
    lastN n (pre ++ x) = lastN n x := by
  unfold lastN
  have e : (pre ++ x).length - n = pre.length + (x.length - n) := by
    simp only [List.length_append]; omega
  rw [e, List.drop_append]

lemma lastN_idem_append (n : ℕ) (l r : List α) :
    lastN n (lastN n l ++ r) = lastN n (l ++ r) := by
  rcases le_or_lt n l.length with h | h
  · have hlen : (lastN n l).length = n := by rw [lastN_length]; omega
    have h2 : n ≤ (lastN n l ++ r).length := by
      rw [List.length_append, hlen]; omega
    conv_rhs =>
      rw [show l = l.take (l.length - n) ++ lastN n l from (take_append_lastN n l).symm,
        List.append_assoc]
    rw [lastN_append_right n _ _ h2]
  · rw [lastN_of_length_le n l h.le]

/-! ## `on_message` structural lemmas -/

lemma on_message_history (s : SensorState) (t1 t2 : String) (p : Payload) :
    (on_message s t1 t2 (some p)).history =
      lastN MAX_ROWS (s.history ++ [mkRow t1 (applyCompat p)]) := by
  show (if (s.history ++ [mkRow t1 (applyCompat p)]).length > MAX_ROWS then
          (s.history ++ [mkRow t1 (applyCompat p)]).drop
            ((s.history ++ [mkRow t1 (applyCompat p)]).length - MAX_ROWS)
        else s.history ++ [mkRow t1 (applyCompat p)]) = _
  by_cases hc : (s.history ++ [mkRow t1 (applyCompat p)]).length > MAX_ROWS
  · rw [if_pos hc]; rfl
  · rw [if_neg hc, lastN_of_length_le _ _ (le_of_not_lt hc)]

lemma on_message_count (s : SensorState) (t1 t2 : String) (p : Payload) :
    (on_message s t1 t2 (some p)).count = s.count + 1 := rfl

lemma on_message_exp_valve (s : SensorState) (t1 t2 : String) (p : Payload) :
    (on_message s t1 t2 (some p)).expansion_valve_outlet_temp =
      getField (applyCompat p) "expansion_valve_outlet_temp" := rfl

lemma on_message_noise (s : SensorState) (t1 t2 : String) (p : Payload) :
    (on_message s t1 t2 (some p)).noise_db = getField (applyCompat p) "noise_db" := rfl

lemma on_message_condenser (s : SensorState) (t1 t2 : String) (p : Payload) :
    (on_message s t1 t2 (some p)).condenser_inlet_temp =
      getField (applyCompat p) "condenser_inlet_temp" := rfl

lemma processAll_cons (s : SensorState) (m : InMsg) (rest : List InMsg) :
    processAll s (m :: rest) =
      processAll (on_message s m.ts_for_history m.ts_for_status (some m.payload)) rest := rfl

lemma processAll_history (msgs : List InMsg) (s : SensorState)
    (hs : s.history.length ≤ MAX_ROWS) :
    (processAll s msgs).history = lastN MAX_ROWS (s.history ++ msgs.map rowOf) := by
  induction msgs generalizing s with
  | nil =>
    simp only [processAll, List.foldl_nil, List.map_nil, List.append_nil]
    exact (lastN_of_length_le _ _ hs).symm
  | cons m rest ih =>
    have hstep := on_message_history s m.ts_for_history m.ts_for_status m.payload
    have hlen :
        (on_message s m.ts_for_history m.ts_for_status (some m.payload)).history.length
          ≤ MAX_ROWS := by
      rw [hstep, lastN_length]; omega
    rw [processAll_cons, ih _ hlen, hstep, lastN_idem_append, List.map_cons,
      List.append_assoc]
    rfl

lemma step_count (s : SensorState) (op : Op) :
    (step s op).count = s.count + (match op with | .message _ _ (some _) => 1 | _ => 0) := by
  cases op with
  | clearHistory => rfl
  | message t1 t2 m => cases m <;> rfl

lemma run_count_mono (ops : List Op) (s : SensorState) : s.count ≤ (run s ops).count := by
  induction ops generalizing s with
  | nil => exact le_refl _
  | cons op rest ih =>
    have h1 : s.count ≤ (step s op).count := by rw [step_count]; omega
    exact le_trans h1 (ih (step s op))

/-! ## Claims -/

/-- **C1** Capacity invariant of the history buffer: after any sequence of
`N` accepted messages processed by `on_message` from the initial state, the
history length is `min N MAX_ROWS`, it never exceeds `MAX_ROWS`, and the
buffer holds exactly the most-recently-accepted `min N MAX_ROWS` rows in
acceptance order (oldest evicted first, strict FIFO). -/
theorem history_capacity_invariant (msgs : List InMsg) :
    (processAll initState msgs).history.length = min msgs.length MAX_ROWS ∧
    (processAll initState msgs).history.length ≤ MAX_ROWS ∧
    (processAll initState msgs).history = lastN MAX_ROWS (msgs.map rowOf) := by
  have h0 : initState.history.length ≤ MAX_ROWS := Nat.zero_le _
  have h := processAll_history msgs initState h0
  rw [show initState.history = [] from rfl, List.nil_append] at h
  refine ⟨?_, ?_, h⟩
  · rw [h, lastN_length, List.length_map]
    omega
  · rw [h, lastN_length]
    omega

/-- **C3** Monotonic sequencing: the store's cumulative counter `count`
increases by exactly 1 on each accepted message, is unchanged by rejected
messages and by `clear_history`, and never decreases along any run of
operations (clearing history does not reset it). -/
theorem sequence_counter_monotonic (s : SensorState) (op : Op) (ops : List Op) :
    (step s op).count = s.count + cond (isAccepted op) 1 0 ∧
    (step s Op.clearHistory).count = s.count ∧
    s.count ≤ (run s ops).count := by
  refine ⟨?_, rfl, run_count_mono ops s⟩
  cases op with
  | clearHistory => rfl
  | message t1 t2 m => cases m <;> rfl

/-- **C5** Malformed-payload atomicity: a message whose raw bytes do not
decode as structured data is handled without error and leaves the state —
in particular the snapshot fields, the history and the message count —
completely unchanged. -/
theorem malformed_payload_atomicity (s : SensorState) (t1 t2 : String) :
    on_message s t1 t2 none = s ∧
    (on_message s t1 t2 none).count = s.count ∧
    (on_message s t1 t2 none).history = s.history :=
  ⟨rfl, rfl, rfl⟩

/-- **C7** Frame condition of `clear_history`: it empties the history and
leaves every current-snapshot field — all eight sensor values,
`last_update`, and `count` — unchanged. -/
theorem clear_history_frame (s : SensorState) :
    (clear_history s).history = [] ∧
    (clear_history s).noise_db = s.noise_db ∧
    (clear_history s).expansion_valve_outlet_temp = s.expansion_valve_outlet_temp ∧
    (clear_history s).condenser_inlet_temp = s.condenser_inlet_temp ∧
    (clear_history s).ambient_temp = s.ambient_temp ∧
    (clear_history s).humidity = s.humidity ∧
    (clear_history s).voltage = s.voltage ∧
    (clear_history s).current = s.current ∧
    (clear_history s).power = s.power ∧
    (clear_history s).last_update = s.last_update ∧
    (clear_history s).count = s.count :=
  ⟨rfl, rfl, rfl, rfl, rfl, rfl, rfl, rfl, rfl, rfl, rfl⟩

/-- **C8** Fault aggregation: for classifier outputs in `{0, 1}` for the two
monitored components, `fault_count` equals the number of non-Normal
results, and the all-normal banner is shown iff `fault_count = 0`. -/
theorem fault_aggregation (p_bearings p_radiator : ℕ)
    (hb : p_bearings ≤ 1) (hr : p_radiator ≤ 1) :
    fault_count p_bearings p_radiator =
      cond (isNormal p_bearings) 0 1 + cond (isNormal p_radiator) 0 1 ∧
    (allNormal p_bearings p_radiator = true ↔ fault_count p_bearings p_radiator = 0) := by
  constructor
  · interval_cases p_bearings <;> interval_cases p_radiator <;> rfl
  · simp [allNormal]

/-- Witness for `fault_aggregation` at the concrete outputs `0` and `1`. -/
theorem fault_aggregation_witness :
    (0 : ℕ) ≤ 1 ∧ (1 : ℕ) ≤ 1 ∧
    (fault_count 0 1 = cond (isNormal 0) 0 1 + cond (isNormal 1) 0 1 ∧
      (allNormal 0 1 = true ↔ fault_count 0 1 = 0)) :=
  ⟨by decide, by decide, fault_aggregation 0 1 (by decide) (by decide)⟩

/-- **C9** Feature-vector shape: the vector handed to the classifiers is
exactly the fixed-order 3-element list
`[noise_db, expansion_valve_outlet_temp, 0]` (zero water-flow placeholder), and
the very same vector goes to both component classifiers. -/
theorem feature_vector_shape (s : SensorState) :
    (predictionInputs s).1 = [s.noise_db, s.expansion_valve_outlet_temp, 0] ∧
    (predictionInputs s).2 = (predictionInputs s).1 ∧
    (predictionInputs s).1.length = 3 :=
  ⟨rfl, rfl, rfl⟩

/-- **C10** Implicit invariant: in every state reachable from the initial
store state by any interleaving of message-processing and clear-history
operations, the history length is at most the cumulative message count. -/
theorem history_length_le_count (ops : List Op) :
    (run initState ops).history.length ≤ (run initState ops).count := by
  suffices h : ∀ (ops : List Op) (s : SensorState), s.history.length ≤ s.count →
      (run s ops).history.length ≤ (run s ops).count by
    exact h ops initState (Nat.le_refl 0)
  intro ops
  induction ops with
  | nil => intro s hs; exact hs
  | cons op rest ih =>
    intro s hs
    refine ih (step s op) ?_
    cases op with
    | clearHistory => exact Nat.zero_le _
    | message t1 t2 m =>
      cases m with
      | none => exact hs
      | some p =>
        show (on_message s t1 t2 (some p)).history.length ≤ (on_message s t1 t2 (some p)).count
        rw [on_message_history s t1 t2 p, on_message_count s t1 t2 p, lastN_length,
          List.length_append]
        simp only [List.length_cons, List.length_nil]
        omega

/-! ## `applyCompat` and `getField` lemmas -/

lemma safe_float_of_unparseable {v : JValue} (d : ℚ) (hv : pyFloat? v = none) :
    safe_float v d = d := by
  cases v with
  | null => rfl
  | bool b => simp [pyFloat?] at hv
  | num q => simp [pyFloat?] at hv
  | str s =>
    simp only [pyFloat?] at hv
    simp [safe_float, pyFloat?, hv]
  | arr l => rfl
  | obj l => rfl

lemma getField_of_num {p : Payload} {k : String} {q : ℚ}
    (h : dictGet? p k = some (.num q)) : getField p k = q := by
  simp [getField, h, safe_float, pyFloat?]

lemma getField_of_none {p : Payload} {k : String}
    (h : dictGet? p k = none) : getField p k = 0 := by
  simp [getField, h, safe_float, pyFloat?]

lemma getField_of_unparseable {p : Payload} {k : String} {v : JValue}
    (h : dictGet? p k = some v) (hv : pyFloat? v = none) : getField p k = 0 := by
  simp only [getField, h, Option.getD_some]
  exact safe_float_of_unparseable 0 hv

lemma dictGet?_condStep (p1 : Payload) {k : String} (hk : k ≠ "condenser_inlet_temp") :
    dictGet?
      (if ! hasKey p1 "condenser_inlet_temp" then dictSet p1 "condenser_inlet_temp" (.num 0) else p1)
      k = dictGet? p1 k := by
  split
  · exact dictGet?_dictSet_ne p1 _ (Ne.symm hk)
  · rfl

lemma dictGet?_applyCompat_other (p : Payload) {k : String}
    (h1 : k ≠ "expansion_valve_outlet_temp") (h2 : k ≠ "condenser_inlet_temp") :
    dictGet? (applyCompat p) k = dictGet? p k := by
  simp only [applyCompat]
  rw [dictGet?_condStep _ h2]
  split
  · exact dictGet?_dictSet_ne p _ (Ne.symm h1)
  · rfl

lemma applyCompat_exp_of_legacy {p : Payload} {v : JValue}
    (hw : dictGet? p "water_outlet_temp" = some v)
    (he : dictGet? p "expansion_valve_outlet_temp" = none) :
    dictGet? (applyCompat p) "expansion_valve_outlet_temp" = some v := by
  simp only [applyCompat]
  rw [dictGet?_condStep _ (by decide)]
  have hcond :
      (hasKey p "water_outlet_temp" && ! hasKey p "expansion_valve_outlet_temp") = true := by
    rw [hasKey_eq_true_iff.mpr ⟨v, hw⟩, hasKey_eq_false_iff.mpr he]
    rfl
  rw [if_pos hcond, hw]
  exact dictGet?_dictSet_self_of_none p _ _ he

lemma applyCompat_exp_of_canonical {p : Payload} {v : JValue}
    (he : dictGet? p "expansion_valve_outlet_temp" = some v) :
    dictGet? (applyCompat p) "expansion_valve_outlet_temp" = some v := by
  simp only [applyCompat]
  rw [dictGet?_condStep _ (by decide)]
  have hcond :
      (hasKey p "water_outlet_temp" && ! hasKey p "expansion_valve_outlet_temp") = false := by
    rw [hasKey_eq_true_iff.mpr ⟨v, he⟩]
    simp
  rw [if_neg (by simp [hcond])]
  exact he

lemma applyCompat_exp_of_neither {p : Payload}
    (hw : dictGet? p "water_outlet_temp" = none) :
    dictGet? (applyCompat p) "expansion_valve_outlet_temp" =
      dictGet? p "expansion_valve_outlet_temp" := by
  simp only [applyCompat]
  rw [dictGet?_condStep _ (by decide)]
  have hcond :
      (hasKey p "water_outlet_temp" && ! hasKey p "expansion_valve_outlet_temp") = false := by
    rw [hasKey_eq_false_iff.mpr hw]
    rfl
  rw [if_neg (by simp [hcond])]

lemma applyCompat_condenser_of_none {p : Payload}
    (hc : dictGet? p "condenser_inlet_temp" = none) :
    dictGet? (applyCompat p) "condenser_inlet_temp" = some (.num 0) := by
  have hP1 : ∀ p1 : Payload, dictGet? p1 "condenser_inlet_temp" = none →
      dictGet?
        (if ! hasKey p1 "condenser_inlet_temp" then dictSet p1 "condenser_inlet_temp" (.num 0)
         else p1) "condenser_inlet_temp" = some (.num 0) := by
    intro p1 h
    rw [if_pos (by rw [hasKey_eq_false_iff.mpr h]; rfl)]
    exact dictGet?_dictSet_self_of_none p1 _ _ h
  simp only [applyCompat]
  apply hP1
  split
  · rw [dictGet?_dictSet_ne p _ (by decide)]
    exact hc
  · exact hc

/-- **C2 counterexample**: the handler has no empty-payload rejection — the
empty dict `{}` contains none of the eight sensor keys, yet processing it
from the initial state increments `count` and appends a history row,
refuting the claimed rejection purity at this concrete input. -/
theorem empty_payload_counterexample :
    (on_message initState "2024-01-01 00:00:00.000000" "2024-01-01 00:00:00"
        (some ([] : Payload))).count ≠ initState.count ∧
    (on_message initState "2024-01-01 00:00:00.000000" "2024-01-01 00:00:00"
        (some ([] : Payload))).history ≠ initState.history := by
  constructor
  · rw [on_message_count]
    exact Nat.succ_ne_self initState.count
  · rw [on_message_history, show initState.history = [] from rfl, List.nil_append,
      lastN_of_length_le _ _ (by simp [MAX_ROWS])]
    simp

/-- **C2 amended**: a payload that decodes as a map containing none of the
eight recognized sensor keys is *accepted*, not rejected: `count`
increments by 1 and one history row is appended (subject to the
`MAX_ROWS` cap); when the legacy alias `water_outlet_temp` is also absent,
every sensor field of the snapshot becomes `0.0`. -/
theorem empty_payload_accepted (s : SensorState) (t1 t2 : String) (p : Payload)
    (h : ∀ k ∈ sensorKeys, dictGet? p k = none) :
    (on_message s t1 t2 (some p)).count = s.count + 1 ∧
    (on_message s t1 t2 (some p)).history =
      lastN MAX_ROWS (s.history ++ [mkRow t1 (applyCompat p)]) ∧
    (dictGet? p "water_outlet_temp" = none →
      (on_message s t1 t2 (some p)).noise_db = 0 ∧
      (on_message s t1 t2 (some p)).expansion_valve_outlet_temp = 0 ∧
      (on_message s t1 t2 (some p)).condenser_inlet_temp = 0 ∧
      (on_message s t1 t2 (some p)).ambient_temp = 0 ∧
      (on_message s t1 t2 (some p)).humidity = 0 ∧
      (on_message s t1 t2 (some p)).voltage = 0 ∧
      (on_message s t1 t2 (some p)).current = 0 ∧
      (on_message s t1 t2 (some p)).power = 0) := by
  refine ⟨on_message_count s t1 t2 p, on_message_history s t1 t2 p, fun hw => ?_⟩
  have hother : ∀ k, k ≠ "expansion_valve_outlet_temp" → k ≠ "condenser_inlet_temp" →
      k ∈ sensorKeys → getField (applyCompat p) k = 0 := by
    intro k hk1 hk2 hk
    rw [getField_of_none]
    rw [dictGet?_applyCompat_other p hk1 hk2]
    exact h k hk
  have hexp : getField (applyCompat p) "expansion_valve_outlet_temp" = 0 := by
    rw [getField_of_none]
    rw [applyCompat_exp_of_neither hw]
    exact h "expansion_valve_outlet_temp" (by simp [sensorKeys])
  have hcond : getField (applyCompat p) "condenser_inlet_temp" = 0 :=
    getField_of_num (applyCompat_condenser_of_none (h "condenser_inlet_temp" (by simp [sensorKeys])))
  exact ⟨hother "noise_db" (by decide) (by decide) (by simp [sensorKeys]),
    hexp, hcond,
    hother "ambient_temp" (by decide) (by decide) (by simp [sensorKeys]),
    hother "humidity" (by decide) (by decide) (by simp [sensorKeys]),
    hother "voltage" (by decide) (by decide) (by simp [sensorKeys]),
    hother "current" (by decide) (by decide) (by simp [sensorKeys]),
    hother "power" (by decide) (by decide) (by simp [sensorKeys])⟩

/-- Witness for `empty_payload_accepted` at the empty dict `{}` processed
from the initial state. -/
theorem empty_payload_accepted_witness :
    (∀ k ∈ sensorKeys, dictGet? ([] : Payload) k = none) ∧
    ((on_message initState "t1" "t2" (some ([] : Payload))).count = initState.count + 1 ∧
     (on_message initState "t1" "t2" (some ([] : Payload))).history =
       lastN MAX_ROWS (initState.history ++ [mkRow "t1" (applyCompat ([] : Payload))]) ∧
     (dictGet? ([] : Payload) "water_outlet_temp" = none →
       (on_message initState "t1" "t2" (some ([] : Payload))).noise_db = 0 ∧
       (on_message initState "t1" "t2" (some ([] : Payload))).expansion_valve_outlet_temp = 0 ∧
       (on_message initState "t1" "t2" (some ([] : Payload))).condenser_inlet_temp = 0 ∧
       (on_message initState "t1" "t2" (some ([] : Payload))).ambient_temp = 0 ∧
       (on_message initState "t1" "t2" (some ([] : Payload))).humidity = 0 ∧
       (on_message initState "t1" "t2" (some ([] : Payload))).voltage = 0 ∧
       (on_message initState "t1" "t2" (some ([] : Payload))).current = 0 ∧
       (on_message initState "t1" "t2" (some ([] : Payload))).power = 0)) :=
  ⟨fun _ _ => rfl, empty_payload_accepted initState "t1" "t2" [] (fun _ _ => rfl)⟩

/-- **C4** Legacy aliasing: a payload with only the legacy
`water_outlet_temp` key set yields a reading whose
`expansion_valve_outlet_temp` equals the legacy value; a payload with both
keys set uses the canonical `expansion_valve_outlet_temp` value. -/
theorem legacy_aliasing (s : SensorState) (t1 t2 : String) (p pBoth : Payload) (q q' w : ℚ)
    (h1 : dictGet? p "water_outlet_temp" = some (.num q))
    (h2 : dictGet? p "expansion_valve_outlet_temp" = none)
    (h3 : dictGet? pBoth "expansion_valve_outlet_temp" = some (.num q'))
    (_h4 : dictGet? pBoth "water_outlet_temp" = some (.num w)) :
    (on_message s t1 t2 (some p)).expansion_valve_outlet_temp = q ∧
    (on_message s t1 t2 (some pBoth)).expansion_valve_outlet_temp = q' := by
  constructor
  · rw [on_message_exp_valve]
    exact getField_of_num (applyCompat_exp_of_legacy h1 h2)
  · rw [on_message_exp_valve]
    exact getField_of_num (applyCompat_exp_of_canonical h3)

/-- Witness for `legacy_aliasing`: legacy-only payload with value `37/2`
(18.5) and a both-keys payload with canonical `7`, legacy `5`. -/
theorem legacy_aliasing_witness :
    dictGet? [("water_outlet_temp", JValue.num (37/2))] "water_outlet_temp"
      = some (JValue.num (37/2)) ∧
    dictGet? [("water_outlet_temp", JValue.num (37/2))] "expansion_valve_outlet_temp" = none ∧
    dictGet? [("expansion_valve_outlet_temp", JValue.num 7), ("water_outlet_temp", JValue.num 5)]
      "expansion_valve_outlet_temp" = some (JValue.num 7) ∧
    dictGet? [("expansion_valve_outlet_temp", JValue.num 7), ("water_outlet_temp", JValue.num 5)]
      "water_outlet_temp" = some (JValue.num 5) ∧
    ((on_message initState "ts" "tss"
        (some [("water_outlet_temp", JValue.num (37/2))])).expansion_valve_outlet_temp = 37/2 ∧
     (on_message initState "ts" "tss"
        (some [("expansion_valve_outlet_temp", JValue.num 7),
               ("water_outlet_temp", JValue.num 5)])).expansion_valve_outlet_temp = 7) :=
  ⟨rfl, rfl, rfl, rfl,
    legacy_aliasing initState "ts" "tss" _ _ (37/2) 7 5 rfl rfl rfl rfl⟩

/-- **C6** Default coercion: a recognized key whose value is not parseable
as a number (including `null`) yields `0.0` for that field without
rejecting the message (the count still increments), `safe_float` returns
its default instead of throwing, and a missing `condenser_inlet_temp`
defaults to `0.0` rather than causing rejection. -/
theorem default_coercion (s : SensorState) (t1 t2 : String) (p : Payload) (v : JValue) (d : ℚ)
    (hv : pyFloat? v = none)
    (hn : dictGet? p "noise_db" = some v)
    (hc : dictGet? p "condenser_inlet_temp" = none) :
    safe_float v d = d ∧
    (on_message s t1 t2 (some p)).noise_db = 0 ∧
    (on_message s t1 t2 (some p)).condenser_inlet_temp = 0 ∧
    (on_message s t1 t2 (some p)).count = s.count + 1 := by
  refine ⟨safe_float_of_unparseable d hv, ?_, ?_, on_message_count s t1 t2 p⟩
  · rw [on_message_noise]
    refine getField_of_unparseable ?_ hv
    rw [dictGet?_applyCompat_other p (by decide) (by decide)]
    exact hn
  · rw [on_message_condenser]
    exact getField_of_num (applyCompat_condenser_of_none hc)

/-- Witness for `default_coercion` at the payload `{"noise_db": null}` with
default `5`. -/
theorem default_coercion_witness :
    pyFloat? JValue.null = none ∧
    dictGet? [("noise_db", JValue.null)] "noise_db" = some JValue.null ∧
    dictGet? [("noise_db", JValue.null)] "condenser_inlet_temp" = none ∧
    (safe_float JValue.null 5 = 5 ∧
     (on_message initState "t1" "t2" (some [("noise_db", JValue.null)])).noise_db = 0 ∧
     (on_message initState "t1" "t2" (some [("noise_db", JValue.null)])).condenser_inlet_temp = 0 ∧
     (on_message initState "t1" "t2" (some [("noise_db", JValue.null)])).count = initState.count + 1) :=
  ⟨rfl, rfl, rfl,
    default_coercion initState "t1" "t2" [("noise_db", JValue.null)] JValue.null 5 rfl rfl rfl⟩
